import Mathlib

/-!
Verification development for the omept/trading-engine repository.

The Go sources are shallowly embedded here:
  - float64 values are modelled as exact rationals;
  - Go string-typed enums (Side, OrderType) are modelled as String, as in
    the source, so that zero values (empty strings) are representable;
  - the exchange adapter is an oracle: a function from the global
    PlaceOrder invocation index to the result of that invocation;
  - side effects that matter to the claims (PlaceOrder invocations and
    time.Sleep calls) are recorded in an explicit event trace;
  - wall-clock time, the SQLite store and goroutine scheduling are outside
    the embedding; persistence is modelled by error oracles where the
    source consults it.
-/

namespace TradingEngine

/-- Go type Side string; SideBuy = BUY, SideSell = SELL (pkg/engine/interfaces.go). -/
abbrev Side := String

def SideBuy : Side := "BUY"

def SideSell : Side := "SELL"

/-- Go type OrderType string; OrderMarket = MARKET, OrderLimit = LIMIT. -/
abbrev OrderType := String

def OrderMarket : OrderType := "MARKET"

def OrderLimit : OrderType := "LIMIT"

/-- Candle from pkg/engine/interfaces.go. Time is modelled as an integer
timestamp; the float fields are exact rationals. -/
structure Candle where
  time : Int
  openP : ℚ
  high : ℚ
  low : ℚ
  close : ℚ
  volume : ℚ
deriving DecidableEq, Repr

/-- Order from pkg/engine/interfaces.go. -/
structure Order where
  id : String
  symbol : String
  side : Side
  type : OrderType
  price : ℚ
  filledPrice : ℚ
  quantity : ℚ
  created : Int
  filled : Bool
deriving DecidableEq, Repr

/-- Go zero value of Order (all fields at their zero values), as produced by
the literal Order{} and Order{ID: id} in the source. -/
def Order.zero : Order :=
  { id := "", symbol := "", side := "", type := "", price := 0,
    filledPrice := 0, quantity := 0, created := 0, filled := false }

/-- Position from pkg/engine/interfaces.go. -/
structure Position where
  symbol : String
  quantity : ℚ
  avgPrice : ℚ
deriving DecidableEq, Repr

/-! ## OrderManager (src/unnamed/part_002)

The idempotency key is fmt.Sprintf with %s:%s:%f:%s over
(Symbol, Side, Quantity, Type). The %f verb renders a float64 with exactly
six digits after the decimal point, i.e. the value rounded to the nearest
multiple of 10^-6; we model the rendered quantity component as that rounded
integer number of micro-units (ties are irrelevant to every statement
below). -/

def fmtQty6 (q : ℚ) : Int := ⌊q * 1000000 + 1 / 2⌋

/-- The idempotency key of an order intent: the tuple the formatted string
determines, with the quantity component already collapsed by %f. -/
structure IdemKey where
  symbol : String
  side : Side
  qty6 : Int
  type : OrderType
deriving DecidableEq, Repr

def idemKey (o : Order) : IdemKey :=
  { symbol := o.symbol, side := o.side, qty6 := fmtQty6 o.quantity, type := o.type }

/-- Association-list lookup standing for the pending map read om.pending[key]. -/
def lookupKey : List (IdemKey × String) → IdemKey → Option String
  | [], _ => none
  | (k, v) :: rest, key => if k = key then some v else lookupKey rest key

/-- Observable events of one Submit call: a PlaceOrder invocation, a
time.Sleep of the given number of milliseconds, and the return. -/
inductive Ev where
  | place : Ev
  | sleep : Nat → Ev
  | ret : Ev
deriving DecidableEq, Repr

/-- The retry loop of OrderManager.Submit: for i := 0; i < 5; i++ call
PlaceOrder; on success stop; on error remember it, sleep wait, double wait.
The adapter oracle maps the global invocation index to that invocation's
result. Returns (result, next invocation index, events). -/
def retryLoop (adapter : Nat → Except String Order) :
    Nat → Nat → Nat → String → Except String Order × Nat × List Ev
  | 0, callIdx, _, lastErr => (Except.error lastErr, callIdx, [])
  | fuel + 1, callIdx, wait, _ =>
    match adapter callIdx with
    | Except.ok r => (Except.ok r, callIdx + 1, [Ev.place])
    | Except.error e =>
      let rec2 := retryLoop adapter fuel (callIdx + 1) (wait * 2) e
      (rec2.1, rec2.2.1, Ev.place :: Ev.sleep wait :: rec2.2.2)

/-- Result of one OrderManager.Submit call: the returned order, the returned
error (none = nil), the pending map afterwards, the next global PlaceOrder
invocation index, and the event trace of the call. -/
structure SubmitOut where
  ord : Order
  err : Option String
  pending : List (IdemKey × String)
  calls : Nat
  trace : List Ev
deriving Repr

/-- OrderManager.Submit (src/unnamed/part_002, lines 23-75). The store is
modelled by the two error oracles for SaveOrder and SaveTrade (none = nil
error, which also covers om.db == nil). Mutex use is not modelled: the
embedding is of one sequential execution. -/
def OrderManager.Submit (adapter : Nat → Except String Order)
    (saveOrderErr saveTradeErr : Option String)
    (pending : List (IdemKey × String)) (callIdx : Nat) (o : Order) : SubmitOut :=
  let key := idemKey o
  match lookupKey pending key with
  | some id =>
    { ord := { Order.zero with id := id }, err := none, pending := pending,
      calls := callIdx, trace := [Ev.ret] }
  | none =>
    match retryLoop adapter 5 callIdx 100 "" with
    | (Except.ok r, ci, tr) =>
      let pending2 := (key, r.id) :: pending
      match saveOrderErr with
      | some e =>
        { ord := r, err := some e, pending := pending2, calls := ci,
          trace := tr ++ [Ev.ret] }
      | none =>
        match saveTradeErr with
        | some e =>
          { ord := r, err := some e, pending := pending2, calls := ci,
            trace := tr ++ [Ev.ret] }
        | none =>
          { ord := r, err := none, pending := pending2, calls := ci,
            trace := tr ++ [Ev.ret] }
    | (Except.error e, ci, tr) =>
      { ord := Order.zero, err := some e, pending := pending, calls := ci,
        trace := tr ++ [Ev.ret] }

/-! ## FixedPercentRisk (src/pkg/engine/risk.go) -/

structure FixedPercentRisk where
  percent : ℚ
deriving Repr

/-- FixedPercentRisk.Size: if price <= 0 return 0, else floor to 8 decimal
places of accountBalance * percent / price (math.Floor rounds toward
negative infinity). -/
def FixedPercentRisk.Size (r : FixedPercentRisk) (symbol : String)
    (price : ℚ) (accountBalance : ℚ) : ℚ :=
  if price ≤ 0 then 0
  else
    let usd := accountBalance * r.percent
    let qty := usd / price
    ((⌊qty * 100000000⌋ : ℤ) : ℚ) / 100000000

/-! ## Backtester (src/unnamed/part_003)

The backtest state is the in-memory ledger: cash balance and the single
Position. The strategy is abstracted to what the replay loop observes: a
function from strategy state and candle to the new state and the list of
orders the strategy submits during that OnCandle call (the source
strategies use the result of Submit only for logging). SetAccountUSD is
folded into the initial strategy state. -/

structure BtState where
  balance : ℚ
  position : Position
deriving DecidableEq, Repr

/-- Go zero value Position{}. -/
def Position.zero : Position := { symbol := "", quantity := 0, avgPrice := 0 }

/-- Backtester.simulateFill (part_003 lines 37-83): marks the order filled
at the given price and updates balance and position. Persistence of the
order and trade has no effect on the ledger and is not modelled. -/
def simulateFill (st : BtState) (o : Order) (price : ℚ) : BtState × Order :=
  let o2 := { o with filled := true, filledPrice := price }
  if o2.side = SideBuy then
    let cost := o2.quantity * price
    let balance2 := st.balance - cost
    let newQty := st.position.quantity + o2.quantity
    let avg2 :=
      if newQty > 0 then
        (st.position.avgPrice * st.position.quantity + cost) / newQty
      else st.position.avgPrice
    (⟨balance2, { st.position with quantity := newQty, avgPrice := avg2 }⟩, o2)
  else if o2.side = SideSell then
    let realized := (price - st.position.avgPrice) * o2.quantity
    let balance2 := st.balance + o2.quantity * price + realized
    let newQty := st.position.quantity - o2.quantity
    let avg2 := if newQty ≤ 0 then 0 else st.position.avgPrice
    (⟨balance2, { st.position with quantity := newQty, avgPrice := avg2 }⟩, o2)
  else (st, o2)

/-- The close of b.candles[len(b.candles)-1]. The empty case is the Go
index-out-of-range panic; it is unreachable from Run on a nonempty candle
list, which is the only caller of Submit in the source. -/
def lastClose : List Candle → ℚ
  | [] => 0
  | [c] => c.close
  | _ :: c :: rest => lastClose (c :: rest)

/-- Backtester.Submit (part_003 lines 88-97): price is the close of the
last element of the whole (sorted) candle slice, not of the candle
currently being replayed. The wall-clock order id is modelled as the
constant prefix. -/
def btSubmit (candles : List Candle) (st : BtState) (o : Order) : BtState × Order :=
  let price := lastClose candles
  let o2 := { o with filledPrice := price, id := "bt_" }
  simulateFill st o2 price

/-- Fold one candle's submitted orders through btSubmit, collecting the
filled orders. -/
def feedOrders (candles : List Candle) (st : BtState) :
    List Order → BtState × List Order
  | [] => (st, [])
  | o :: rest =>
    let r := btSubmit candles st o
    let r2 := feedOrders candles r.1 rest
    (r2.1, r.2 :: r2.2)

/-- Insertion sort on time, modelling sort.Slice with less i j =
Time(i).Before(Time(j)); for distinct times the result is the unique
ascending ordering (ties may come out in any order in Go, and this picks
one admissible result). -/
def insertByTime (c : Candle) : List Candle → List Candle
  | [] => [c]
  | d :: ds => if c.time ≤ d.time then c :: d :: ds else d :: insertByTime c ds

def sortByTime : List Candle → List Candle
  | [] => []
  | c :: cs => insertByTime c (sortByTime cs)

/-- The replay loop of Backtester.Run: for each candle, run the strategy,
fill each submitted order via btSubmit, then append the equity sample
balance + (close - avgPrice) * quantity. Returns the final ledger state,
the equity curve, and all filled orders in order. -/
def runLoop {σ : Type} (strat : σ → Candle → σ × List Order)
    (candles : List Candle) :
    σ → BtState → List Candle → BtState × List ℚ × List Order
  | _, st, [] => (st, [], [])
  | s, st, c :: rest =>
    let step := strat s c
    let fed := feedOrders candles st step.2
    let equity :=
      fed.1.balance + (c.close - fed.1.position.avgPrice) * fed.1.position.quantity
    let r := runLoop strat candles step.1 fed.1 rest
    (r.1, equity :: r.2.1, fed.2 ++ r.2.2)

structure BacktestStats where
  runID : String
  finalEquity : ℚ
  equityCurve : List ℚ
deriving Repr

/-- Outcome of Backtester.Run: stats is none exactly when the Go code
panics indexing equityCurve[len(equityCurve)-1] on an empty curve; the
filled orders are kept as an observation trace. -/
structure RunOut where
  stats : Option BacktestStats
  fills : List Order
deriving Repr

/-- Backtester.Run (part_003 lines 102-142): sort the candles ascending by
time, replay them through the strategy, then read the final equity as the
last element of the equity curve. -/
def Backtester.Run {σ : Type} (strat : σ → Candle → σ × List Order)
    (candles : List Candle) (s0 : σ) (initialUSD : ℚ) : RunOut :=
  let sorted := sortByTime candles
  let r := runLoop strat sorted s0 ⟨initialUSD, Position.zero⟩ sorted
  match r.2.1.getLast? with
  | none => { stats := none, fills := r.2.2 }
  | some fe =>
    { stats := some { runID := "run_", finalEquity := fe, equityCurve := r.2.1 },
      fills := r.2.2 }

/-- One candle step of the replay, at the level of (strategy state, ledger
state): used to describe the state after a prefix of the candle list. -/
def stepCandle {σ : Type} (strat : σ → Candle → σ × List Order)
    (candles : List Candle) : σ × BtState → Candle → σ × BtState :=
  fun p c =>
    let step := strat p.1 c
    (step.1, (feedOrders candles p.2 step.2).1)

/-- The (strategy, ledger) state after replaying a prefix of candles. -/
def stateAfter {σ : Type} (strat : σ → Candle → σ × List Order)
    (candles : List Candle) (s0 : σ) (st0 : BtState)
    (pref : List Candle) : σ × BtState :=
  pref.foldl (stepCandle strat candles) (s0, st0)

/-- Equity of a ledger state marked at a close price: cash balance plus
unrealized PnL of the open position. -/
def equityOf (st : BtState) (close : ℚ) : ℚ :=
  st.balance + (close - st.position.avgPrice) * st.position.quantity

/-! ## EMACrossover strategy (src/pkg/strategy/meanrev.go) -/

/-- Tail of the ema computation: given the previous ema value, produce the
ema values of the remaining series. -/
def emaFrom (k : ℚ) : ℚ → List ℚ → List ℚ
  | _, [] => []
  | prev, x :: xs =>
    let p := (x - prev) * k + prev
    p :: emaFrom k p xs

/-- The ema helper (meanrev.go lines 137-154): for period <= 0 the all-zero
output; otherwise out[0] = series[0] and
out[i] = (series[i] - out[i-1]) * k + out[i-1] with k = 2/(period+1). -/
def ema (series : List ℚ) (period : Int) : List ℚ :=
  if period ≤ 0 then series.map (fun _ => 0)
  else
    match series with
    | [] => []
    | x :: xs => x :: emaFrom (2 / ((period : ℚ) + 1)) x xs

/-- The fields of the EMACrossover struct that OnCandle reads or writes.
The executor, lock and name are not part of the candle-to-orders function;
the risk manager is passed as a function argument. -/
structure EMACrossover where
  shortP : Int
  longP : Int
  prices : List ℚ
  symbol : String
  accountUSD : ℚ
deriving Repr

/-- EMACrossover.OnCandle (meanrev.go lines 156-192), with the risk manager
abstracted as a sizing function and the submitted orders returned in
program order. The source has two consecutive non-exclusive if statements;
the fall-through from the BUY branch into the SELL test is kept. Index
arithmetic n-1 is Nat subtraction; for longP >= 0 the history-length guard
makes n >= 1, matching Go (for negative longP the Go code would panic on
index -1, which the claims never exercise). -/
def EMACrossover.OnCandle (risk : String → ℚ → ℚ → ℚ) (e : EMACrossover)
    (c : Candle) : EMACrossover × List Order :=
  let price := c.close
  let prices2 := e.prices ++ [price]
  let e2 := { e with prices := prices2 }
  if (prices2.length : Int) < e.longP + 2 then (e2, [])
  else
    let short := ema prices2 e.shortP
    let long := ema prices2 e.longP
    let n := short.length - 1
    let prev := n - 1
    if short.getD prev 0 ≤ long.getD prev 0 ∧ long.getD n 0 < short.getD n 0 then
      let qty := risk e.symbol price e.accountUSD
      if qty ≤ 0 then (e2, [])
      else
        let buyO : Order :=
          { Order.zero with
            price := price
            symbol := e.symbol
            side := SideBuy
            type := OrderMarket
            quantity := qty }
        if long.getD prev 0 ≤ short.getD prev 0 ∧ short.getD n 0 < long.getD n 0 then
          let qty2 := risk e.symbol price e.accountUSD
          if qty2 ≤ 0 then (e2, [buyO])
          else
            let sellO : Order :=
              { Order.zero with
                symbol := e.symbol
                side := SideSell
                type := OrderMarket
                quantity := qty2 }
            (e2, [buyO, sellO])
        else (e2, [buyO])
    else
      if long.getD prev 0 ≤ short.getD prev 0 ∧ short.getD n 0 < long.getD n 0 then
        let qty := risk e.symbol price e.accountUSD
        if qty ≤ 0 then (e2, [])
        else
          let sellO : Order :=
            { Order.zero with
              symbol := e.symbol
              side := SideSell
              type := OrderMarket
              quantity := qty }
          (e2, [sellO])
      else (e2, [])

/-- Feed a candle list to an EMACrossover instance one candle at a time,
collecting the orders submitted on each candle. -/
def runEMASeries (risk : String → ℚ → ℚ → ℚ) (e : EMACrossover) :
    List Candle → List (List Order)
  | [] => []
  | c :: rest =>
    let r := EMACrossover.OnCandle risk e c
    r.2 :: runEMASeries risk r.1 rest

/-! ## Claim-side definitions

These definitions follow the words of the specification (not the source)
and exist to be compared with the source-derived definitions above. -/

/-- Rounding toward zero, the behavior the spec ascribes to the 8-decimal
truncation (truncated ... always rounding toward zero). -/
def truncTowardZero (q : ℚ) : ℤ := if 0 ≤ q then ⌊q⌋ else -⌊-q⌋

/-- The sizing function as the spec words it: quantity truncated toward
zero to 8 decimal places. -/
def claimSize8 (percent : ℚ) (symbol : String) (price accountBalance : ℚ) : ℚ :=
  if price ≤ 0 then 0
  else
    ((truncTowardZero (accountBalance * percent / price * 100000000) : ℤ) : ℚ) / 100000000

/-- The average-price update the claim states for a BUY, as written:
(old_avg * old_qty + q * p) / (old_qty + q). -/
def claimBuyAvg (oldAvg oldQty q p : ℚ) : ℚ :=
  (oldAvg * oldQty + q * p) / (oldQty + q)

/-- Sleep durations appearing in a Submit event trace, in order. -/
def sleepsOf : List Ev → List Nat
  | [] => []
  | Ev.sleep w :: rest => w :: sleepsOf rest
  | _ :: rest => sleepsOf rest

/-- Whether a trace still contains a PlaceOrder invocation. -/
def hasPlace : List Ev → Bool
  | [] => false
  | Ev.place :: _ => true
  | _ :: rest => hasPlace rest

/-- Every sleep in the trace is later followed by a PlaceOrder invocation;
this is the between-the-attempts reading of the claimed backoff waits. -/
def sleepsBetweenAttempts : List Ev → Bool
  | [] => true
  | Ev.sleep _ :: rest => hasPlace rest && sleepsBetweenAttempts rest
  | _ :: rest => sleepsBetweenAttempts rest

/-- Number of PlaceOrder invocations recorded in a trace. -/
def placeCount : List Ev → Nat
  | [] => 0
  | Ev.place :: rest => placeCount rest + 1
  | _ :: rest => placeCount rest

/-- An adapter that accepts every placement, assigning order id A. -/
def okAdapterA : Nat → Except String Order :=
  fun _ => Except.ok { Order.zero with id := "A" }

/-- An adapter whose first placement attempt fails and whose later attempts
succeed with order id A. -/
def failOnceAdapter : Nat → Except String Order :=
  fun n => if n = 0 then Except.error "boom" else Except.ok { Order.zero with id := "A" }

/-- An adapter that rejects every placement attempt. -/
def failAllAdapter : Nat → Except String Order :=
  fun _ => Except.error "boom"

/-- A strategy that never submits anything. -/
def nilStrat : Unit → Candle → Unit × List Order :=
  fun s _ => (s, [])

/-- A strategy that submits one market BUY of quantity 1 on the first
candle it sees and nothing afterwards; state is the have-submitted flag. -/
def buyOnceStrat (symbol : String) : Bool → Candle → Bool × List Order :=
  fun done _ =>
    if done then (true, [])
    else
      (true,
        [{ Order.zero with
           symbol := symbol
           side := SideBuy
           type := OrderMarket
           quantity := 1 }])

/-- A flat price-only candle at an integer time, for concrete runs. -/
def mkCandle (t : Int) (p : ℚ) : Candle :=
  { time := t, openP := p, high := p, low := p, close := p, volume := 0 }

/-- Sizing function that always returns quantity 1: stands for a risk
manager whose result is positive, isolating the signal logic. -/
def constRisk1 : String → ℚ → ℚ → ℚ := fun _ _ _ => 1

/-- The concrete EMA crossover instance used in the single-cross scenario:
short period 2, long period 3. -/
def emaCross23 : EMACrossover :=
  { shortP := 2, longP := 3, prices := [], symbol := "X", accountUSD := 1000 }

/-- A close-price series that crosses from below to above the long EMA
exactly once: five falling closes, then two rising ones; the upward cross
happens at the sixth candle. -/
def crossOnceCandles : List Candle :=
  [mkCandle 0 10, mkCandle 1 9, mkCandle 2 8, mkCandle 3 7, mkCandle 4 6,
   mkCandle 5 12, mkCandle 6 13]

/-- Go zero value Candle{}, used only as a getD default. -/
def Candle.zero : Candle :=
  { time := 0, openP := 0, high := 0, low := 0, close := 0, volume := 0 }

/-- A market BUY intent of quantity 1. -/
def buyOrder1 : Order :=
  { Order.zero with side := SideBuy, type := OrderMarket, quantity := 1 }

/-- A market SELL intent of quantity 1. -/
def sellOrder1 : Order :=
  { Order.zero with side := SideSell, type := OrderMarket, quantity := 1 }

/-- A market SELL intent of quantity 2. -/
def sellOrder2 : Order :=
  { Order.zero with side := SideSell, type := OrderMarket, quantity := 2 }

/-- A BUY intent with quantity 0.10000001 (8 decimals). -/
def collideOrder1 : Order :=
  { Order.zero with
    symbol := "BTC-USD"
    side := SideBuy
    type := OrderMarket
    quantity := 10000001 / 100000000 }

/-- A BUY intent with quantity 0.10000002: same symbol, side, type, but a
different quantity in the eighth decimal place. -/
def collideOrder2 : Order :=
  { Order.zero with
    symbol := "BTC-USD"
    side := SideBuy
    type := OrderMarket
    quantity := 10000002 / 100000000 }

/-- The i-th EMA value over a price history (0 outside the range, as
List.getD). -/
def emaAt (ps : List ℚ) (period : Int) (i : Nat) : ℚ :=
  (ema ps period).getD i 0

/-- The short EMA was at or below the long EMA at the previous sample and
is above it at the last sample: the upward-cross BUY condition. -/
def crossUpAt (ps : List ℚ) (s l : Int) : Prop :=
  emaAt ps s (ps.length - 1 - 1) ≤ emaAt ps l (ps.length - 1 - 1) ∧
  emaAt ps l (ps.length - 1) < emaAt ps s (ps.length - 1)

/-- The symmetric downward-cross SELL condition. -/
def crossDownAt (ps : List ℚ) (s l : Int) : Prop :=
  emaAt ps l (ps.length - 1 - 1) ≤ emaAt ps s (ps.length - 1 - 1) ∧
  emaAt ps s (ps.length - 1) < emaAt ps l (ps.length - 1)

instance (ps : List ℚ) (s l : Int) : Decidable (crossUpAt ps s l) := by
  unfold crossUpAt
  infer_instance

instance (ps : List ℚ) (s l : Int) : Decidable (crossDownAt ps s l) := by
  unfold crossDownAt
  infer_instance

/-- The market BUY order the EMA strategy submits on an upward cross. -/
def emaBuyOrder (e : EMACrossover) (price qty : ℚ) : Order :=
  { Order.zero with
    price := price
    symbol := e.symbol
    side := SideBuy
    type := OrderMarket
    quantity := qty }

/-- The market SELL order the EMA strategy submits on a downward cross. -/
def emaSellOrder (e : EMACrossover) (qty : ℚ) : Order :=
  { Order.zero with
    symbol := e.symbol
    side := SideSell
    type := OrderMarket
    quantity := qty }

/-- Number of BUY orders in a list. -/
def buyCount : List Order → Nat
  | [] => 0
  | o :: rest => (if o.side = SideBuy then 1 else 0) + buyCount rest

/-- Number of SELL orders in a list. -/
def sellCount : List Order → Nat
  | [] => 0
  | o :: rest => (if o.side = SideSell then 1 else 0) + sellCount rest

/-! ## Theorems -/

/-- Evaluation of simulateFill on a BUY order. -/
theorem simulateFill_buy (st : BtState) (o : Order) (p : ℚ)
    (h : o.side = SideBuy) :
    simulateFill st o p =
      (⟨st.balance - o.quantity * p,
        { st.position with
          quantity := st.position.quantity + o.quantity
          avgPrice :=
            if 0 < st.position.quantity + o.quantity then
              (st.position.avgPrice * st.position.quantity + o.quantity * p) /
                (st.position.quantity + o.quantity)
            else st.position.avgPrice }⟩,
       { o with filled := true, filledPrice := p }) := by
  simp [simulateFill, h]

/-- Evaluation of simulateFill on a SELL order. -/
theorem simulateFill_sell (st : BtState) (o : Order) (p : ℚ)
    (h : o.side = SideSell) :
    simulateFill st o p =
      (⟨st.balance + o.quantity * p + (p - st.position.avgPrice) * o.quantity,
        { st.position with
          quantity := st.position.quantity - o.quantity
          avgPrice :=
            if st.position.quantity - o.quantity ≤ 0 then 0
            else st.position.avgPrice }⟩,
       { o with filled := true, filledPrice := p }) := by
  simp [simulateFill, h, SideBuy, SideSell]

/-- C6 (amended): FixedPercentRisk.Size returns 0 whenever price ≤ 0;
otherwise it returns floor((balance × percent / price) × 10^8) / 10^8 where
floor rounds toward negative infinity, the result never exceeds the exact
quantity (never rounds up), and whenever balance × percent ≥ 0 — in
particular for every nonnegative balance — it coincides with truncation
toward zero to 8 decimal places. For negative balance × percent the floor
rounds away from zero, so the always-toward-zero reading fails (see the
counterexample). -/
theorem size_floor_spec (p : ℚ) (sym : String) (price bal : ℚ) :
    (price ≤ 0 → FixedPercentRisk.Size ⟨p⟩ sym price bal = 0) ∧
    (0 < price →
      FixedPercentRisk.Size ⟨p⟩ sym price bal =
        ((⌊bal * p / price * 100000000⌋ : ℤ) : ℚ) / 100000000 ∧
      FixedPercentRisk.Size ⟨p⟩ sym price bal ≤ bal * p / price ∧
      (0 ≤ bal * p →
        FixedPercentRisk.Size ⟨p⟩ sym price bal = claimSize8 p sym price bal)) := by
  constructor
  · intro h
    simp [FixedPercentRisk.Size, h]
  · intro h
    have hne : ¬ price ≤ 0 := not_le.mpr h
    refine ⟨by simp [FixedPercentRisk.Size, hne], ?_, ?_⟩
    · have hfl : ((⌊bal * p / price * 100000000⌋ : ℤ) : ℚ) ≤ bal * p / price * 100000000 :=
        Int.floor_le _
      have h8 : (0:ℚ) < 100000000 := by norm_num
      have := (div_le_div_iff_of_pos_right h8).mpr hfl
      simpa [FixedPercentRisk.Size, hne, mul_div_assoc,
             mul_div_cancel_right₀ _ (by norm_num : (100000000:ℚ) ≠ 0)] using this
    · intro hbp
      have hq : (0:ℚ) ≤ bal * p / price * 100000000 := by positivity
      simp [FixedPercentRisk.Size, claimSize8, truncTowardZero, hne, hq]

/-- C6 witness: at price 0 the size is 0; at price 4 with percent 1 and
balance 1000 the size never exceeds the exact quantity 250. -/
theorem size_floor_spec_witness :
    FixedPercentRisk.Size ⟨1⟩ "X" 0 1000 = 0 ∧
    FixedPercentRisk.Size ⟨1⟩ "X" 4 1000 ≤ 1000 * 1 / 4 := by
  exact ⟨(size_floor_spec 1 "X" 0 1000).1 (by norm_num),
    ((size_floor_spec 1 "X" 4 1000).2 (by norm_num)).2.1⟩

/-- C6 counterexample: with percent 1, price 1 and balance -3/200000000
(an 8-decimal quantity of -1.5e-8 before truncation) the code floors
-1.5 to -2 and returns -2e-8, strictly below the exact quantity — it
rounds away from zero, while truncation toward zero would give -1e-8. -/
theorem size_toward_zero_cex :
    FixedPercentRisk.Size ⟨1⟩ "X" 1 (-3 / 200000000) = -1 / 50000000 ∧
    claimSize8 1 "X" 1 (-3 / 200000000) = -1 / 100000000 ∧
    FixedPercentRisk.Size ⟨1⟩ "X" 1 (-3 / 200000000) ≠
      claimSize8 1 "X" 1 (-3 / 200000000) ∧
    FixedPercentRisk.Size ⟨1⟩ "X" 1 (-3 / 200000000) <
      -3 / 200000000 * 1 / 1 := by
  norm_num [FixedPercentRisk.Size, claimSize8, truncTowardZero]

/-- C3 (amended): a backtest BUY fill of quantity q at price p moves the
balance to balance - q×p, accumulates the position quantity, and updates
the average price to (old_avg×old_qty + q×p)/(old_qty+q) whenever the
resulting quantity is positive (for a resulting quantity ≤ 0, reachable by
overselling first, the code leaves the average price unchanged instead); a
SELL fill realizes (p - avg)×q, moves the balance to
balance + q×p + realized, decreases the quantity by q, resets the average
price to 0 when the resulting quantity is ≤ 0 and keeps it otherwise; and
BUY 1 at 100 then SELL 1 at 110 from balance 1000 yields balance 1020,
position quantity 0 and average price 0. -/
theorem simulate_fill_arithmetic :
    (∀ (st : BtState) (o : Order) (p : ℚ), o.side = SideBuy →
      (simulateFill st o p).1.balance = st.balance - o.quantity * p ∧
      (simulateFill st o p).1.position.quantity =
        st.position.quantity + o.quantity ∧
      (0 < st.position.quantity + o.quantity →
        (simulateFill st o p).1.position.avgPrice =
          claimBuyAvg st.position.avgPrice st.position.quantity o.quantity p) ∧
      (st.position.quantity + o.quantity ≤ 0 →
        (simulateFill st o p).1.position.avgPrice = st.position.avgPrice)) ∧
    (∀ (st : BtState) (o : Order) (p : ℚ), o.side = SideSell →
      (simulateFill st o p).1.balance =
        st.balance + o.quantity * p + (p - st.position.avgPrice) * o.quantity ∧
      (simulateFill st o p).1.position.quantity =
        st.position.quantity - o.quantity ∧
      (st.position.quantity - o.quantity ≤ 0 →
        (simulateFill st o p).1.position.avgPrice = 0) ∧
      (0 < st.position.quantity - o.quantity →
        (simulateFill st o p).1.position.avgPrice = st.position.avgPrice)) ∧
    ((simulateFill (simulateFill ⟨1000, Position.zero⟩ buyOrder1 100).1
        sellOrder1 110).1.balance = 1020 ∧
     (simulateFill (simulateFill ⟨1000, Position.zero⟩ buyOrder1 100).1
        sellOrder1 110).1.position.quantity = 0 ∧
     (simulateFill (simulateFill ⟨1000, Position.zero⟩ buyOrder1 100).1
        sellOrder1 110).1.position.avgPrice = 0) := by
  refine ⟨?_, ?_, ?_⟩
  · intro st o p h
    rw [simulateFill_buy st o p h]
    refine ⟨rfl, rfl, ?_, ?_⟩
    · intro hq
      simp [claimBuyAvg, hq]
    · intro hq
      simp [not_lt.mpr hq]
  · intro st o p h
    rw [simulateFill_sell st o p h]
    refine ⟨rfl, rfl, ?_, ?_⟩
    · intro hq
      simp [hq]
    · intro hq
      simp [not_le.mpr hq]
  · rw [simulateFill_buy _ buyOrder1 100 rfl,
      simulateFill_sell _ sellOrder1 110 rfl]
    norm_num [buyOrder1, sellOrder1, Position.zero, Order.zero]

/-- C3 witness: instantiating the BUY and SELL characterizations on a
concrete fill each. -/
theorem simulate_fill_arithmetic_witness :
    (simulateFill ⟨1000, Position.zero⟩ buyOrder1 100).1.balance =
      1000 - 1 * 100 ∧
    (simulateFill ⟨500, ⟨"", 3, 50⟩⟩ sellOrder1 60).1.position.quantity =
      3 - 1 := by
  constructor
  · have h := (simulate_fill_arithmetic.1 ⟨1000, Position.zero⟩ buyOrder1 100
      (by simp [buyOrder1, Order.zero])).1
    simpa [buyOrder1, Order.zero, Position.zero] using h
  · have h := (simulate_fill_arithmetic.2.1 ⟨500, ⟨"", 3, 50⟩⟩ sellOrder1 60
      (by simp [sellOrder1, Order.zero])).2.1
    simpa [sellOrder1, Order.zero] using h

/-- C3 counterexample: from a flat start, SELL 2 at 100 drives the position
quantity to -2 (the simulator has no inventory check); a following BUY of 1
at 100 leaves the average price unchanged at 0, while the claimed formula
(old_avg×old_qty + q×p)/(old_qty+q) gives -100. -/
theorem simulate_fill_buy_avg_cex :
    (simulateFill ⟨1000, Position.zero⟩ sellOrder2 100).1.position.quantity = -2 ∧
    (simulateFill (simulateFill ⟨1000, Position.zero⟩ sellOrder2 100).1
      buyOrder1 100).1.position.avgPrice = 0 ∧
    claimBuyAvg 0 (-2) 1 100 = -100 ∧
    (simulateFill (simulateFill ⟨1000, Position.zero⟩ sellOrder2 100).1
      buyOrder1 100).1.position.avgPrice ≠ claimBuyAvg 0 (-2) 1 100 := by
  rw [simulateFill_sell _ sellOrder2 100 rfl]
  rw [simulateFill_buy _ buyOrder1 100 rfl]
  norm_num [claimBuyAvg, sellOrder2, buyOrder1, Position.zero, Order.zero]

/-- Evaluation of the retry loop when the first attempt succeeds. -/
theorem retryLoop_first_ok (adapter : Nat → Except String Order) (r : Order)
    (fuel c0 wait : Nat) (le : String) (h : adapter c0 = Except.ok r) :
    retryLoop adapter (fuel + 1) c0 wait le = (Except.ok r, c0 + 1, [Ev.place]) := by
  simp [retryLoop, h]

/-- Evaluation of the retry loop when every attempt fails: five attempts,
five sleeps of 100, 200, 400, 800, 1600 ms, the last sleep after the last
attempt, and the error of the fifth attempt as result. -/
theorem retryLoop_all_fail (adapter : Nat → Except String Order)
    (es : Nat → String) (c0 : Nat) (le : String)
    (h : ∀ n, adapter n = Except.error (es n)) :
    retryLoop adapter 5 c0 100 le =
      (Except.error (es (c0 + 4)), c0 + 5,
       [Ev.place, Ev.sleep 100, Ev.place, Ev.sleep 200, Ev.place, Ev.sleep 400,
        Ev.place, Ev.sleep 800, Ev.place, Ev.sleep 1600]) := by
  simp [retryLoop, h, Nat.add_assoc]

/-- C1 (amended): once a Submit has succeeded for an intent, the mapping
for its idempotency key is registered, and any later Submit with an
identical intent returns an order bearing the previously assigned id
immediately — no PlaceOrder invocation, no sleeps; consequently, when the
adapter accepts every placement, two sequential Submit calls with identical
intents invoke PlaceOrder exactly once in total. (Without the no-failure
proviso the at-most-once bound fails: each unsuccessful Submit retries
PlaceOrder up to 5 times, see the counterexample.) -/
theorem submit_idempotent (adapter : Nat → Except String Order)
    (r : Nat → Order) (so st so2 st2 : Option String)
    (pending : List (IdemKey × String)) (c0 : Nat) (o : Order) (id : String) :
    (lookupKey pending (idemKey o) = some id →
      OrderManager.Submit adapter so st pending c0 o =
        { ord := { Order.zero with id := id }, err := none, pending := pending,
          calls := c0, trace := [Ev.ret] }) ∧
    (lookupKey pending (idemKey o) = none →
      (∀ n, adapter n = Except.ok (r n)) →
      (OrderManager.Submit adapter so st pending c0 o).ord = r c0 ∧
      (OrderManager.Submit adapter so st pending c0 o).calls = c0 + 1 ∧
      (OrderManager.Submit adapter so st pending c0 o).pending =
        (idemKey o, (r c0).id) :: pending ∧
      placeCount (OrderManager.Submit adapter so st pending c0 o).trace = 1 ∧
      (OrderManager.Submit adapter so2 st2 ((idemKey o, (r c0).id) :: pending)
          (c0 + 1) o).ord.id = (r c0).id ∧
      (OrderManager.Submit adapter so2 st2 ((idemKey o, (r c0).id) :: pending)
          (c0 + 1) o).calls = c0 + 1 ∧
      placeCount (OrderManager.Submit adapter so2 st2
          ((idemKey o, (r c0).id) :: pending) (c0 + 1) o).trace = 0) := by
  constructor
  · intro h
    simp [OrderManager.Submit, h]
  · intro hkey hok
    have hfirst := retryLoop_first_ok adapter (r c0) 4 c0 100 "" (hok c0)
    have hsecond : lookupKey ((idemKey o, (r c0).id) :: pending) (idemKey o) =
        some (r c0).id := by
      simp [lookupKey]
    cases so <;> cases st <;>
      simp [OrderManager.Submit, hkey, hfirst, hsecond, placeCount]

/-- C1 witness: with an always-accepting adapter, the first Submit of the
unit BUY intent invokes PlaceOrder once and the second resolves to order id
A with no further PlaceOrder invocation. -/
theorem submit_idempotent_witness :
    (OrderManager.Submit okAdapterA none none [] 0 buyOrder1).calls = 0 + 1 ∧
    (OrderManager.Submit okAdapterA none none
        ((idemKey buyOrder1, "A") :: []) (0 + 1) buyOrder1).ord.id = "A" ∧
    placeCount (OrderManager.Submit okAdapterA none none
        ((idemKey buyOrder1, "A") :: []) (0 + 1) buyOrder1).trace = 0 := by
  have h := (submit_idempotent okAdapterA
      (fun _ => { Order.zero with id := "A" }) none none none none [] 0
      buyOrder1 "A").2 rfl (fun _ => rfl)
  exact ⟨h.2.1, h.2.2.2.2.1, h.2.2.2.2.2.2⟩

/-- C1 counterexample: with an adapter whose first attempt fails and second
succeeds, a single successful Submit already invokes PlaceOrder twice, so
across two sequential identical Submit calls PlaceOrder is invoked twice —
the unconditional at-most-once reading is false. -/
theorem submit_at_most_once_cex :
    (OrderManager.Submit failOnceAdapter none none
        (OrderManager.Submit failOnceAdapter none none [] 0 buyOrder1).pending
        (OrderManager.Submit failOnceAdapter none none [] 0 buyOrder1).calls
        buyOrder1).calls = 2 ∧
    placeCount (OrderManager.Submit failOnceAdapter none none [] 0
        buyOrder1).trace +
      placeCount (OrderManager.Submit failOnceAdapter none none
        (OrderManager.Submit failOnceAdapter none none [] 0 buyOrder1).pending
        (OrderManager.Submit failOnceAdapter none none [] 0 buyOrder1).calls
        buyOrder1).trace = 2 ∧
    ¬ (2 : Nat) ≤ 1 := by
  refine ⟨?_, ?_, by norm_num⟩ <;>
    simp [OrderManager.Submit, retryLoop, failOnceAdapter, lookupKey,
      placeCount]

/-- C4 (amended): with no existing mapping and an adapter that fails every
attempt, Submit makes exactly 5 placement attempts, sleeping 100, 200, 400
and 800 ms between consecutive attempts and a further 1600 ms after the
fifth failed attempt before returning; it returns the error of the last
attempt, registers no idempotency mapping, and a future Submit with the
same key makes 5 fresh placement attempts rather than resolving to the
failure. -/
theorem submit_exhausted_retries (adapter : Nat → Except String Order)
    (es : Nat → String) (so st : Option String)
    (pending : List (IdemKey × String)) (o : Order)
    (hkey : lookupKey pending (idemKey o) = none)
    (hfail : ∀ n, adapter n = Except.error (es n)) :
    OrderManager.Submit adapter so st pending 0 o =
      { ord := Order.zero, err := some (es 4), pending := pending, calls := 5,
        trace := [Ev.place, Ev.sleep 100, Ev.place, Ev.sleep 200, Ev.place,
          Ev.sleep 400, Ev.place, Ev.sleep 800, Ev.place, Ev.sleep 1600,
          Ev.ret] } ∧
    sleepsOf (OrderManager.Submit adapter so st pending 0 o).trace =
      [100, 200, 400, 800, 1600] ∧
    placeCount (OrderManager.Submit adapter so st pending 0 o).trace = 5 ∧
    placeCount (OrderManager.Submit adapter so st pending 5 o).trace = 5 := by
  have h0 := retryLoop_all_fail adapter es 0 "" hfail
  have h5 := retryLoop_all_fail adapter es 5 "" hfail
  refine ⟨?_, ?_, ?_, ?_⟩ <;>
    simp [OrderManager.Submit, hkey, h0, h5, sleepsOf, placeCount]

/-- C4 witness: the exhausted-retries behavior evaluated on the
always-failing adapter and the unit BUY intent. -/
theorem submit_exhausted_retries_witness :
    (OrderManager.Submit failAllAdapter none none [] 0 buyOrder1).err =
      some "boom" ∧
    (OrderManager.Submit failAllAdapter none none [] 0 buyOrder1).pending = [] ∧
    placeCount (OrderManager.Submit failAllAdapter none none [] 0
      buyOrder1).trace = 5 := by
  have h := submit_exhausted_retries failAllAdapter (fun _ => "boom")
    none none [] buyOrder1 rfl (fun _ => rfl)
  refine ⟨?_, ?_, h.2.2.1⟩ <;> rw [h.1]

/-- C4 counterexample: in the all-fail trace the five waits are 100, 200,
400, 800, 1600 ms, but the 1600 ms sleep happens after the fifth attempt,
just before Submit returns — not between two attempts, contradicting the
claim that all five waits lie between the 5 attempts. -/
theorem submit_backoff_between_cex :
    sleepsOf (OrderManager.Submit failAllAdapter none none [] 0
      buyOrder1).trace = [100, 200, 400, 800, 1600] ∧
    sleepsBetweenAttempts (OrderManager.Submit failAllAdapter none none [] 0
      buyOrder1).trace = false := by
  constructor <;>
    simp [OrderManager.Submit, retryLoop, failAllAdapter, lookupKey,
      sleepsOf, sleepsBetweenAttempts, hasPlace]

/-- C9: two order intents whose quantities differ by less than 10^-6 (both
producible by the 8-decimal risk sizer) and agree in symbol, side and type
are mapped by the %f-formatted idempotency key to the same key, so after
the first is placed as order A, submitting the second returns order id A
without ever invoking PlaceOrder for it. -/
theorem idem_key_collision :
    collideOrder1.quantity ≠ collideOrder2.quantity ∧
    0 < collideOrder2.quantity - collideOrder1.quantity ∧
    collideOrder2.quantity - collideOrder1.quantity < 1 / 1000000 ∧
    FixedPercentRisk.Size ⟨1⟩ "BTC-USD" 1 (10000001 / 100000000) =
      collideOrder1.quantity ∧
    FixedPercentRisk.Size ⟨1⟩ "BTC-USD" 1 (10000002 / 100000000) =
      collideOrder2.quantity ∧
    idemKey collideOrder1 = idemKey collideOrder2 ∧
    (OrderManager.Submit okAdapterA none none
        (OrderManager.Submit okAdapterA none none [] 0 collideOrder1).pending
        (OrderManager.Submit okAdapterA none none [] 0 collideOrder1).calls
        collideOrder2).ord.id = "A" ∧
    placeCount (OrderManager.Submit okAdapterA none none
        (OrderManager.Submit okAdapterA none none [] 0 collideOrder1).pending
        (OrderManager.Submit okAdapterA none none [] 0 collideOrder1).calls
        collideOrder2).trace = 0 := by
  have hkeys : idemKey collideOrder1 = idemKey collideOrder2 := by
    simp only [idemKey, fmtQty6, collideOrder1, collideOrder2, Order.zero]
    norm_num [Int.floor_eq_iff]
  refine ⟨?_, ?_, ?_, ?_, ?_, hkeys, ?_, ?_⟩
  · norm_num [collideOrder1, collideOrder2, Order.zero]
  · norm_num [collideOrder1, collideOrder2, Order.zero]
  · norm_num [collideOrder1, collideOrder2, Order.zero]
  · norm_num [FixedPercentRisk.Size, collideOrder1, Order.zero]
  · norm_num [FixedPercentRisk.Size, collideOrder2, Order.zero]
  · simp [OrderManager.Submit, lookupKey, retryLoop, okAdapterA, hkeys]
  · simp [OrderManager.Submit, lookupKey, retryLoop, okAdapterA, hkeys,
      placeCount]

/-- Insertion keeps the candle count. -/
theorem insertByTime_length (c : Candle) (l : List Candle) :
    (insertByTime c l).length = l.length + 1 := by
  induction l with
  | nil => rfl
  | cons d ds ih =>
    by_cases h : c.time ≤ d.time <;> simp [insertByTime, h, ih]

/-- Sorting keeps the candle count. -/
theorem sortByTime_length (l : List Candle) :
    (sortByTime l).length = l.length := by
  induction l with
  | nil => rfl
  | cons c cs ih => simp [sortByTime, insertByTime_length, ih]

/-- The replay loop produces one equity sample per processed candle. -/
theorem runLoop_length {σ : Type} (strat : σ → Candle → σ × List Order)
    (cs : List Candle) :
    ∀ (rem : List Candle) (s : σ) (st : BtState),
      (runLoop strat cs s st rem).2.1.length = rem.length := by
  intro rem
  induction rem with
  | nil => intro s st; rfl
  | cons c rest ih => intro s st; simp [runLoop, ih]

/-- The i-th equity sample of the replay loop is the equity of the ledger
state reached after the first i+1 remaining candles, marked at the i-th
candle's close. -/
theorem runLoop_getD {σ : Type} (strat : σ → Candle → σ × List Order)
    (cs : List Candle) :
    ∀ (rem : List Candle) (s : σ) (st : BtState) (i : Nat), i < rem.length →
      (runLoop strat cs s st rem).2.1.getD i 0 =
        equityOf (stateAfter strat cs s st (rem.take (i + 1))).2
          ((rem.getD i Candle.zero).close) := by
  intro rem
  induction rem with
  | nil => intro s st i hi; simp at hi
  | cons c rest ih =>
    intro s st i hi
    cases i with
    | zero =>
      simp [runLoop, stateAfter, stepCandle, equityOf]
    | succ j =>
      have hj : j < rest.length := by simpa using hi
      have h2 := ih (strat s c).1 (feedOrders cs st (strat s c).2).1 j hj
      simpa [runLoop, stateAfter, stepCandle] using h2

/-- C5: for every strategy and nonempty candle list, the backtest run
returns stats whose equity curve has exactly one sample per candle, the
i-th sample being the cash balance plus unrealized PnL of the open
position after the i-th (time-sorted) candle, marked at that candle's
close price, and whose FinalEquity is the last element of the curve. -/
theorem run_equity_curve {σ : Type} (strat : σ → Candle → σ × List Order)
    (candles : List Candle) (s0 : σ) (init : ℚ) (h : candles ≠ []) :
    ∃ stats : BacktestStats,
      (Backtester.Run strat candles s0 init).stats = some stats ∧
      stats.equityCurve.length = candles.length ∧
      (∀ i, i < candles.length →
        stats.equityCurve.getD i 0 =
          equityOf
            (stateAfter strat (sortByTime candles) s0 ⟨init, Position.zero⟩
              ((sortByTime candles).take (i + 1))).2
            (((sortByTime candles).getD i Candle.zero).close)) ∧
      stats.equityCurve.getLast? = some stats.finalEquity := by
  have hslen := sortByTime_length candles
  have hclen := runLoop_length strat (sortByTime candles) (sortByTime candles)
    s0 ⟨init, Position.zero⟩
  rcases hl : (runLoop strat (sortByTime candles) s0 ⟨init, Position.zero⟩
      (sortByTime candles)).2.1.getLast? with _ | fe
  · exfalso
    have hnil := List.getLast?_eq_none_iff.mp hl
    rw [hnil] at hclen
    rw [hslen] at hclen
    exact h (List.length_eq_zero.mp hclen.symm)
  · refine ⟨{ runID := "run_"
              finalEquity := fe
              equityCurve := (runLoop strat (sortByTime candles) s0
                ⟨init, Position.zero⟩ (sortByTime candles)).2.1 }, ?_, ?_, ?_, ?_⟩
    · simp [Backtester.Run, hl]
    · rw [hclen, hslen]
    · intro i hi
      refine runLoop_getD strat (sortByTime candles) (sortByTime candles) s0
        ⟨init, Position.zero⟩ i ?_
      rw [hslen]
      exact hi
    · exact hl

/-- C5 witness: the equity-curve properties instantiated on a one-candle
run of the do-nothing strategy. -/
theorem run_equity_curve_witness :
    ∃ stats : BacktestStats,
      (Backtester.Run nilStrat [mkCandle 0 100] () 1000).stats = some stats ∧
      stats.equityCurve.length = ([mkCandle 0 100] : List Candle).length ∧
      (∀ i, i < ([mkCandle 0 100] : List Candle).length →
        stats.equityCurve.getD i 0 =
          equityOf
            (stateAfter nilStrat (sortByTime [mkCandle 0 100]) ()
              ⟨1000, Position.zero⟩
              ((sortByTime [mkCandle 0 100]).take (i + 1))).2
            (((sortByTime [mkCandle 0 100]).getD i Candle.zero).close)) ∧
      stats.equityCurve.getLast? = some stats.finalEquity :=
  run_equity_curve nilStrat [mkCandle 0 100] () 1000 (by simp)

/-- C10: running the backtester on zero candles yields no stats for any
strategy — the Go code indexes equityCurve[len(equityCurve)-1] on an empty
slice and panics instead of returning. -/
theorem run_empty_candles_fails {σ : Type}
    (strat : σ → Candle → σ × List Order) (s0 : σ) (init : ℚ) :
    (Backtester.Run strat [] s0 init).stats = none := rfl

/-- C10 witness: the empty-candle failure evaluated on the do-nothing
strategy. -/
theorem run_empty_candles_fails_witness :
    (Backtester.Run nilStrat [] () 1000).stats = none :=
  run_empty_candles_fails nilStrat () 1000

/-- C2: in a two-candle backtest whose closes are 100 then 200, an order
submitted by the strategy while the first candle (close 100) is being
replayed is filled at 200 — the close of the final candle of the whole
sorted list, b.candles[len(b.candles)-1] — not at the close of the candle
currently being processed as the spec states. -/
theorem backtest_fill_price_lookahead :
    (Backtester.Run (buyOnceStrat "X") [mkCandle 0 100, mkCandle 1 200]
        false 1000).fills.map Order.filledPrice = [200] ∧
    (mkCandle 0 100).close = 100 ∧
    (200 : ℚ) ≠ 100 := by
  refine ⟨?_, rfl, by norm_num⟩
  simp [Backtester.Run, sortByTime, insertByTime, runLoop, buyOnceStrat,
    feedOrders, btSubmit, lastClose, simulateFill, mkCandle, Order.zero,
    Position.zero, SideBuy, SideSell]

/-- The ema tail has the length of its input. -/
theorem emaFrom_length (k : ℚ) :
    ∀ (xs : List ℚ) (prev : ℚ), (emaFrom k prev xs).length = xs.length := by
  intro xs
  induction xs with
  | nil => intro prev; rfl
  | cons x xs2 ih => intro prev; simp [emaFrom, ih]

/-- The ema output has the length of its input series. -/
theorem ema_length (ps : List ℚ) (period : Int) :
    (ema ps period).length = ps.length := by
  unfold ema
  by_cases h : period ≤ 0
  · simp [h]
  · cases ps with
    | nil => simp [h]
    | cons x xs => simp [h, emaFrom_length]

/-- Successor values of the ema tail satisfy the EMA recurrence. -/
theorem emaFrom_getD_succ (k : ℚ) :
    ∀ (xs : List ℚ) (prev : ℚ) (i : Nat), i + 1 < xs.length →
      (emaFrom k prev xs).getD (i + 1) 0 =
        (xs.getD (i + 1) 0 - (emaFrom k prev xs).getD i 0) * k +
          (emaFrom k prev xs).getD i 0 := by
  intro xs
  induction xs with
  | nil => intro prev i hi; simp at hi
  | cons x xs2 ih =>
    intro prev i hi
    cases i with
    | zero =>
      cases xs2 with
      | nil => simp at hi
      | cons y ys => simp [emaFrom]
    | succ j =>
      have hj : j + 1 < xs2.length := by simpa using hi
      simpa [emaFrom] using ih ((x - prev) * k + prev) j hj

/-- The ema function computes exactly the EMA recurrence of the spec: the
seed is the first price and each later value is
(price[i] - ema[i-1]) * k + ema[i-1] with k = 2/(period+1). -/
theorem ema_recurrence (ps : List ℚ) (period : Int) (hp : 0 < period) :
    (ps ≠ [] → (ema ps period).getD 0 0 = ps.getD 0 0) ∧
    (∀ i, i + 1 < ps.length →
      (ema ps period).getD (i + 1) 0 =
        (ps.getD (i + 1) 0 - (ema ps period).getD i 0) *
            (2 / ((period : ℚ) + 1)) +
          (ema ps period).getD i 0) := by
  have hnp : ¬ period ≤ 0 := not_le.mpr hp
  constructor
  · intro hne
    cases ps with
    | nil => exact absurd rfl hne
    | cons x xs => simp [ema, hnp]
  · intro i hi
    cases ps with
    | nil => simp at hi
    | cons x xs =>
      cases i with
      | zero =>
        cases xs with
        | nil => simp at hi
        | cons y ys => simp [ema, hnp, emaFrom]
      | succ j =>
        have hj : j + 1 < xs.length := by simpa using hi
        simpa [ema, hnp] using
          emaFrom_getD_succ (2 / ((period : ℚ) + 1)) xs x j hj

/-- Past the history-length guard, OnCandle appends the close and submits
exactly the order the cross conditions dictate: a BUY on an upward cross
with positive sized quantity, a SELL on a downward cross with positive
sized quantity, nothing otherwise. -/
theorem onCandle_signal (risk : String → ℚ → ℚ → ℚ) (e : EMACrossover)
    (c : Candle) (h : e.longP + 2 ≤ (e.prices.length : Int) + 1) :
    EMACrossover.OnCandle risk e c =
      ({ e with prices := e.prices ++ [c.close] },
        if crossUpAt (e.prices ++ [c.close]) e.shortP e.longP then
          if risk e.symbol c.close e.accountUSD ≤ 0 then []
          else [emaBuyOrder e c.close (risk e.symbol c.close e.accountUSD)]
        else if crossDownAt (e.prices ++ [c.close]) e.shortP e.longP then
          if risk e.symbol c.close e.accountUSD ≤ 0 then []
          else [emaSellOrder e (risk e.symbol c.close e.accountUSD)]
        else []) := by
  have hg : ¬ (((e.prices ++ [c.close]).length : Int) < e.longP + 2) := by
    simp only [List.length_append, List.length_singleton]
    push_cast
    omega
  simp only [EMACrossover.OnCandle, hg, if_false, crossUpAt, crossDownAt,
    emaAt, ema_length, emaBuyOrder, emaSellOrder]
  split_ifs <;>
    first
      | rfl
      | (exfalso
         casesm* _ ∧ _
         linarith)

/-- Below the history-length guard, OnCandle only appends the close. -/
theorem onCandle_noop (risk : String → ℚ → ℚ → ℚ) (e : EMACrossover)
    (c : Candle) (h : (e.prices.length : Int) + 1 < e.longP + 2) :
    EMACrossover.OnCandle risk e c =
      ({ e with prices := e.prices ++ [c.close] }, []) := by
  have hg : ((e.prices ++ [c.close]).length : Int) < e.longP + 2 := by
    simp only [List.length_append, List.length_singleton]
    push_cast
    omega
  simp only [EMACrossover.OnCandle]
  rw [if_pos hg]

/-- C7: EMACrossover.OnCandle submits nothing while the history (including
the current candle) is shorter than long_period+2; the ema function
realizes exactly the recurrence ema[0] = first price,
ema[i] = (price[i]-ema[i-1])×k + ema[i-1] with k = 2/(period+1); past the
guard, the BUY order is submitted iff the short EMA was ≤ the long EMA at
the previous sample and is above it at the last sample and the sized
quantity is positive (symmetrically for SELL); at most one order is
submitted per candle; and on the concrete series that crosses upward
exactly once, exactly one BUY fires, at the crossing candle, and no order
fires on any other candle. -/
theorem ema_crossover_spec :
    (∀ (risk : String → ℚ → ℚ → ℚ) (e : EMACrossover) (c : Candle),
      (e.prices.length : Int) + 1 < e.longP + 2 →
      EMACrossover.OnCandle risk e c =
        ({ e with prices := e.prices ++ [c.close] }, [])) ∧
    (∀ (ps : List ℚ) (period : Int), 0 < period →
      (ema ps period).length = ps.length ∧
      (ps ≠ [] → (ema ps period).getD 0 0 = ps.getD 0 0) ∧
      (∀ i, i + 1 < ps.length →
        (ema ps period).getD (i + 1) 0 =
          (ps.getD (i + 1) 0 - (ema ps period).getD i 0) *
              (2 / ((period : ℚ) + 1)) +
            (ema ps period).getD i 0)) ∧
    (∀ (risk : String → ℚ → ℚ → ℚ) (e : EMACrossover) (c : Candle),
      e.longP + 2 ≤ (e.prices.length : Int) + 1 →
      (emaBuyOrder e c.close (risk e.symbol c.close e.accountUSD) ∈
          (EMACrossover.OnCandle risk e c).2 ↔
        crossUpAt (e.prices ++ [c.close]) e.shortP e.longP ∧
          0 < risk e.symbol c.close e.accountUSD) ∧
      (emaSellOrder e (risk e.symbol c.close e.accountUSD) ∈
          (EMACrossover.OnCandle risk e c).2 ↔
        crossDownAt (e.prices ++ [c.close]) e.shortP e.longP ∧
          0 < risk e.symbol c.close e.accountUSD)) ∧
    (∀ (risk : String → ℚ → ℚ → ℚ) (e : EMACrossover) (c : Candle),
      (EMACrossover.OnCandle risk e c).2.length ≤ 1) ∧
    ((runEMASeries constRisk1 emaCross23 crossOnceCandles).map buyCount =
        [0, 0, 0, 0, 0, 1, 0] ∧
      (runEMASeries constRisk1 emaCross23 crossOnceCandles).map sellCount =
        [0, 0, 0, 0, 0, 0, 0]) := by
  refine ⟨?_, ?_, ?_, ?_, ?_, ?_⟩
  · intro risk e c h
    exact onCandle_noop risk e c h
  · intro ps period hp
    exact ⟨ema_length ps period, (ema_recurrence ps period hp).1,
      (ema_recurrence ps period hp).2⟩
  · intro risk e c h
    have hsig := onCandle_signal risk e c h
    have hbs : emaBuyOrder e c.close (risk e.symbol c.close e.accountUSD) ≠
        emaSellOrder e (risk e.symbol c.close e.accountUSD) := by
      simp [emaBuyOrder, emaSellOrder, Order.zero, SideBuy, SideSell]
    constructor
    · by_cases hUp : crossUpAt (e.prices ++ [c.close]) e.shortP e.longP
      · by_cases hq : risk e.symbol c.close e.accountUSD ≤ 0
        · simp [hsig, hUp, hq, not_lt.mpr hq]
        · simp [hsig, hUp, hq, not_le.mp hq]
      · by_cases hDn : crossDownAt (e.prices ++ [c.close]) e.shortP e.longP
        · by_cases hq : risk e.symbol c.close e.accountUSD ≤ 0
          · simp [hsig, hUp, hDn, hq]
          · simp [hsig, hUp, hDn, hq, hbs]
        · simp [hsig, hUp, hDn]
    · by_cases hUp : crossUpAt (e.prices ++ [c.close]) e.shortP e.longP
      · have hnd : ¬ crossDownAt (e.prices ++ [c.close]) e.shortP e.longP :=
          fun hc => absurd hUp.2 (not_lt.mpr (le_of_lt hc.2))
        by_cases hq : risk e.symbol c.close e.accountUSD ≤ 0
        · simp [hsig, hUp, hnd, hq]
        · simp [hsig, hUp, hnd, hq, Ne.symm hbs]
      · by_cases hDn : crossDownAt (e.prices ++ [c.close]) e.shortP e.longP
        · by_cases hq : risk e.symbol c.close e.accountUSD ≤ 0
          · simp [hsig, hUp, hDn, hq, not_lt.mpr hq]
          · simp [hsig, hUp, hDn, hq, not_le.mp hq]
        · simp [hsig, hUp, hDn]
  · intro risk e c
    by_cases h : e.longP + 2 ≤ (e.prices.length : Int) + 1
    · rw [onCandle_signal risk e c h]
      split_ifs <;> simp
    · rw [onCandle_noop risk e c (not_le.mp h)]
      simp
  · norm_num [runEMASeries, EMACrossover.OnCandle, ema, emaFrom, emaCross23,
      crossOnceCandles, mkCandle, constRisk1, buyCount, Order.zero, SideBuy,
      SideSell, OrderMarket]
  · norm_num [runEMASeries, EMACrossover.OnCandle, ema, emaFrom, emaCross23,
      crossOnceCandles, mkCandle, constRisk1, sellCount, Order.zero, SideBuy,
      SideSell, OrderMarket]
    all_goals decide

/-- C7 witness: the guard no-op evaluated on the short/long = 2/3 instance
with empty history, and the EMA recurrence evaluated on a two-price
series. -/
theorem ema_crossover_spec_witness :
    EMACrossover.OnCandle constRisk1 emaCross23 (mkCandle 0 10) =
      ({ emaCross23 with prices := [10] }, []) ∧
    (ema [(1 : ℚ), 2] 1).getD 1 0 =
      (([(1 : ℚ), 2].getD 1 0 - (ema [(1 : ℚ), 2] 1).getD 0 0) *
          (2 / (((1 : Int) : ℚ) + 1)) +
        (ema [(1 : ℚ), 2] 1).getD 0 0) := by
  constructor
  · have h := ema_crossover_spec.1 constRisk1 emaCross23 (mkCandle 0 10)
      (by norm_num [emaCross23])
    simpa [emaCross23, mkCandle] using h
  · exact (ema_crossover_spec.2.1 [(1 : ℚ), 2] 1 (by norm_num)).2.2 0
      (by norm_num)

end TradingEngine
